import Mathlib

/-!
Shallow embedding of the Rust teaching snippets in
`src/Rust/enums_pattern_matching.rs` and `src/Rust/traits.rs`,
with theorems settling the spec's claims about them.

Machine integers are modelled as `Int` with explicit two's-complement
wrapping where overflow matters; Rust `println!`/`format!` output is
modelled as the produced `String` (or list of lines for loops).
-/

namespace ProlangsGuide

/-! ## enums_pattern_matching.rs : Coin / value_in_cents (lines 147-176) -/

/-- `enum UsState { Alabama, Alaska }` with `#[derive(Debug)]`. -/
inductive UsState where
  | Alabama
  | Alaska
deriving DecidableEq

/-- Debug formatting of a `UsState`, as `{state:?}` prints it. -/
def UsState.debugFmt : UsState → String
  | .Alabama => "Alabama"
  | .Alaska => "Alaska"

/-- The final `enum Coin` of the file: `Quarter` carries a `UsState`. -/
inductive Coin where
  | Penny
  | Nickel
  | Dime
  | Quarter (state : UsState)
deriving DecidableEq

/-- `fn value_in_cents(coin: Coin) -> u8` (lines 166-176); the `Quarter`
arm also prints the bound state before returning 25, an effect that does
not touch the numeric result. Return values all fit in `u8`. -/
def value_in_cents : Coin → Nat
  | .Penny => 1
  | .Nickel => 5
  | .Dime => 10
  | .Quarter _ => 25

/-! ## plus_one (lines 184-193): `Option<i32>` increment -/

/-- Two's-complement wrap of an `Int` into the `i32` range. -/
def wrap32 (x : Int) : Int := (x + 2 ^ 31) % 2 ^ 32 - 2 ^ 31

/-- Smallest `i32` value. -/
def i32min : Int := -(2 ^ 31)

/-- Largest `i32` value. -/
def i32max : Int := 2 ^ 31 - 1

/-- `fn plus_one(x: Option<i32>) -> Option<i32>`: `i + 1` is `i32`
addition, so it wraps at the representable boundary. -/
def plus_one : Option Int → Option Int
  | none => none
  | some i => some (wrap32 (i + 1))

/-! ## traits.rs : Greet trait, implementors, dispatch (lines 6-87) -/

/-- `struct Person { name: String }`. -/
structure Person where
  name : String
deriving DecidableEq

/-- `struct Robot;` (unit struct). -/
structure Robot where
deriving DecidableEq

/-- `enum Color { Red, Blue, Green }`. -/
inductive Color where
  | Red
  | Blue
  | Green
deriving DecidableEq

/-- `impl Greet for Person`: `format!("My name is {}", self.name)`. -/
def Person.say_hello (self : Person) : String := "My name is " ++ self.name

/-- `impl Greet for Robot`: `format!("I am a robot")`. -/
def Robot.say_hello (_ : Robot) : String := "I am a robot"

/-- `impl Greet for Color`: matches on the variant and returns its name. -/
def Color.say_hello : Color → String
  | .Red => "Red"
  | .Blue => "Blue"
  | .Green => "Green"

/-- `trait Greet { fn say_hello(&self) -> String; }` as a typeclass: the
per-type implementations above are its instances; static dispatch picks
the instance from the concrete type at the call site. -/
class Greet (α : Type) where
  say_hello : α → String

instance : Greet Person := ⟨Person.say_hello⟩

instance : Greet Robot := ⟨Robot.say_hello⟩

instance : Greet Color := ⟨Color.say_hello⟩

/-- `fn greet_someone(greeter: &impl Greet)` — static dispatch; output is
the printed line. -/
def greet_someone {α : Type} [Greet α] (greeter : α) : String :=
  Greet.say_hello greeter

/-- A `&dyn Greet` trait object: the erased value together with its tag,
modelled as the closed sum of the implementing types. -/
inductive DynGreet where
  | ofPerson (p : Person)
  | ofRobot (r : Robot)
  | ofColor (c : Color)
deriving DecidableEq

/-- The vtable lookup: from the trait object's tag to the concrete
`say_hello` implementation. -/
def DynGreet.vtable : DynGreet → (DynGreet → String)
  | .ofPerson _ => fun g => match g with
      | .ofPerson p => p.say_hello
      | .ofRobot r => r.say_hello
      | .ofColor c => c.say_hello
  | .ofRobot _ => fun g => match g with
      | .ofPerson p => p.say_hello
      | .ofRobot r => r.say_hello
      | .ofColor c => c.say_hello
  | .ofColor _ => fun g => match g with
      | .ofPerson p => p.say_hello
      | .ofRobot r => r.say_hello
      | .ofColor c => c.say_hello

/-- `fn dynamic_greet(greeter: &dyn Greet)` — dynamic dispatch: the method
is found through the per-instance vtable, not at the call site. -/
def dynamic_greet (greeter : DynGreet) : String :=
  greeter.vtable greeter

/-- `let alice = Person { name: "Alice".to_string() };` -/
def alice : Person := ⟨"Alice"⟩

/-- `let bot = Robot;` -/
def bot : Robot := ⟨⟩

/-- `let col = Color::Green;` -/
def col : Color := .Green

/-- `let greeters: Vec<&dyn Greet> = vec![&alice, &bot, &col];` -/
def greeters : List DynGreet := [.ofPerson alice, .ofRobot bot, .ofColor col]

/-- The lines printed by `for greeter in greeters { dynamic_greet(greeter); }`:
one invocation per element, in iteration order. -/
def greetersLoopOutput : List String := greeters.map dynamic_greet

/-! ## traits.rs : Animal / Box<dyn Animal> (lines 136-156) -/

/-- The `dyn Animal` trait objects: `Dog` and `Cat` are unit structs, so
the sum of implementors carries no payload. -/
inductive Animal where
  | dog
  | cat
deriving DecidableEq

/-- `fn speak(&self)` output: `"Woof!"` for `Dog`, `"Meow!"` for `Cat`. -/
def Animal.speak : Animal → String
  | .dog => "Woof!"
  | .cat => "Meow!"

/-- `let animals: Vec<Box<dyn Animal>> = vec![Box::new(Dog), Box::new(Cat)];` -/
def animals : List Animal := [.dog, .cat]

/-- The lines printed by `for animal in animals { animal.speak(); }`. -/
def animalsLoopOutput : List String := animals.map Animal.speak

/-! ## traits.rs : default implementation (lines 104-111, 192-196) -/

/-- The second `trait Greet` of the file, whose `say_hello` has the
default body `format!("Default hello")`. -/
class GreetDefault (α : Type) where
  say_hello : α → String := fun _ => "Default hello"

/-- An implementation that keeps the default body, as `impl Greet for T {}`
does. -/
def defaultGreetInst (α : Type) : GreetDefault α := {}

/-- `impl Greet for Robot {}` — uses the default implementation. -/
instance robotGreetDefault : GreetDefault Robot := defaultGreetInst Robot

/-- `struct Bird;` -/
structure Bird where
deriving DecidableEq

/-- `impl Greet for Bird {}` — default implementation. -/
instance birdGreetDefault : GreetDefault Bird := defaultGreetInst Bird

/-! ## enums_pattern_matching.rs : IpAddress (lines 19-26) -/

/-- `enum IpAddress { V4(u8, u8, u8, u8), V6(String) }`; the `u8` fields
are modelled as `Nat` (every value used is below 256). -/
inductive IpAddress where
  | V4 (a b c d : Nat)
  | V6 (s : String)
deriving DecidableEq

/-- `let home = IpAddress::V4(127, 0, 0, 1);` -/
def home : IpAddress := .V4 127 0 0 1

/-- `let loopback = IpAddress::V6(String::from("::1"));` -/
def loopback : IpAddress := .V6 "::1"

/-- Modelled from the spec: the repository declares `IpAddress` and the
two sample values but defines no derivation function over it; `describe`
follows the spec's words — for `V4`, format the four numeric fields as a
dotted sequence; for `V6`, return the textual field verbatim. -/
def describe : IpAddress → String
  | .V4 a b c d =>
      toString a ++ "." ++ toString b ++ "." ++ toString c ++ "." ++ toString d
  | .V6 s => s

/-! ## if let vs match (lines 225-236, 251-264) -/

/-- `match config_max { Some(max) => println!("The maximum is configured
to be {max}"), _ => () }`: the printed lines. -/
def configMaxMatch (config_max : Option Nat) : List String :=
  match config_max with
  | some max => ["The maximum is configured to be " ++ toString max]
  | _ => []

/-- The `if let Some(max) = config_max { ... }` rewriting of the same
code. -/
def configMaxIfLet (config_max : Option Nat) : List String :=
  if let some max := config_max then
    ["The maximum is configured to be " ++ toString max]
  else
    []

/-- `match coin { Coin::Quarter(state) => println!("State quarter from
{state:?}!"), _ => count += 1 }`: the printed lines paired with the final
count. -/
def coinCountMatch (count : Nat) (coin : Coin) : List String × Nat :=
  match coin with
  | .Quarter state => (["State quarter from " ++ state.debugFmt ++ "!"], count)
  | _ => ([], count + 1)

/-- The `if let Coin::Quarter(state) = coin { ... } else { count += 1 }`
rewriting of the same code. -/
def coinCountIfLet (count : Nat) (coin : Coin) : List String × Nat :=
  if let .Quarter state := coin then
    (["State quarter from " ++ state.debugFmt ++ "!"], count)
  else
    ([], count + 1)

/-! ## tuple match with wildcard sub-patterns (lines 430-435) -/

/-- `let one = Some(1); let two = Some(2);` then `match (one, two) {
(Some(_), Some(_)) => println!("Yo") }`: the single arm's wildcard
sub-patterns bind nothing; `none` models the no-match outcome. -/
def matchPair : Option Int × Option Int → Option String
  | (some _, some _) => some "Yo"
  | _ => none

/-! ## channel / while let (lines 309-318) -/

/-- The values the producer thread sends, in order:
`for val in [1, 2, 3] { tx.send(val).unwrap() }` (the source writes
`ux.send`, a typo for `tx`). -/
def sent : List Int := [1, 2, 3]

/-- `rx.recv()` on a FIFO channel, modelled as the queue of values sent
but not yet received: returns `Ok` with the front value and the remaining
queue, or `Err` once the channel is closed and drained. -/
def recv : List Int → Except Unit (Int × List Int)
  | [] => .error ()
  | v :: rest => .ok (v, rest)

/-- `while let Ok(value) = rx.recv() { println!("{value}") }`: the list
of printed values, receiving repeatedly until the channel yields
nothing. -/
def whileLetRecv : List Int → List Int
  | [] => []
  | v :: rest => v :: whileLetRecv rest

/-! ## match guards (lines 459-465) -/

/-- The guarded match as written in the source:
`match num { Some(k) if x % 2 == 0 => "even" line, Some(k) => "odd" line,
None => () }`. The guard tests `x`, an outer variable (the nearest
preceding binding in the file is `let (x, y, z) = (2, 3, 4)`), not the
bound `k`; `x` is therefore an explicit parameter here. A guarded arm
falls through to the next arm when the guard is false, which for these
arms is the `if`/`else` below. -/
def matchNum (x : Int) : Option Int → String
  | some k =>
      if x % 2 == 0 then "The number " ++ toString k ++ " is even."
      else "The number " ++ toString k ++ " is odd."
  | none => ""

/-- The guarded match as the spec states it: the guard is `k % 2 == 0`
on the value bound by the pattern. -/
def matchNumSpec : Option Int → String
  | some k =>
      if k % 2 == 0 then "The number " ++ toString k ++ " is even."
      else "The number " ++ toString k ++ " is odd."
  | none => ""

end ProlangsGuide

namespace ProlangsGuide

/-! ## Theorems for C1 and C2 -/

/-- C1: `value_in_cents` maps Penny/Nickel/Dime/Quarter to exactly
1/5/10/25, and for every region tag `s` the Quarter value is 25. -/
theorem value_in_cents_spec :
    value_in_cents .Penny = 1 ∧
    value_in_cents .Nickel = 5 ∧
    value_in_cents .Dime = 10 ∧
    ∀ s : UsState, value_in_cents (.Quarter s) = 25 := by
  refine ⟨rfl, rfl, rfl, ?_⟩
  intro s
  rfl

/-- C2 counterexample: at the `i32` boundary `x = 2147483647`, the code's
`plus_one(Some(x))` is not `Some(x + 1)`: the addition wraps to the
minimum `i32` value. -/
theorem plus_one_overflow_counterexample :
    plus_one (some 2147483647) ≠ some (2147483647 + 1) ∧
    plus_one (some 2147483647) = some (-2147483648) := by
  constructor
  · intro h
    simp only [plus_one, wrap32, Option.some.injEq] at h
    norm_num at h
  · simp only [plus_one, wrap32, Option.some.injEq]
    norm_num

/-- C2 amended: `plus_one(None) = None`, and for every `i32`-representable
`x` whose successor is still representable (`i32min ≤ x < i32max`),
`plus_one(Some(x)) = Some(x + 1)`; in particular `plus_one(Some 5) = Some 6`. -/
theorem plus_one_in_range (x : Int) (h1 : i32min ≤ x) (h2 : x < i32max) :
    plus_one (some x) = some (x + 1) ∧ plus_one none = none := by
  constructor
  · simp only [plus_one, wrap32, Option.some.injEq, i32min, i32max] at *
    omega
  · rfl

/-- C2 witness: the amended theorem applied at `x = 5`. -/
theorem plus_one_in_range_witness :
    i32min ≤ 5 ∧ (5 : Int) < i32max ∧
    (plus_one (some 5) = some (5 + 1) ∧ plus_one none = none) :=
  ⟨by decide, by decide, plus_one_in_range 5 (by decide) (by decide)⟩

/-- C3: iterating the heterogeneous `greeters` vector invokes each
element's own implementation exactly once in iteration order — the
output is exactly [Alice's name greeting, the robot greeting, the colour
name] — and iterating `animals` yields exactly "Woof!" then "Meow!". -/
theorem dyn_dispatch_loop_outputs :
    greetersLoopOutput =
      ["My name is Alice", "I am a robot", "Green"] ∧
    greetersLoopOutput =
      [alice.say_hello, bot.say_hello, col.say_hello] ∧
    animalsLoopOutput = ["Woof!", "Meow!"] := by
  refine ⟨rfl, rfl, rfl⟩

/-- C9: static and dynamic dispatch agree — for every `Person`, `Robot`
and `Color`, `greet_someone` (static) and `dynamic_greet` (vtable) return
the same string, namely that entity's own `say_hello` result. -/
theorem static_dynamic_dispatch_agree :
    (∀ p : Person,
      greet_someone p = dynamic_greet (.ofPerson p) ∧
      greet_someone p = p.say_hello) ∧
    (∀ r : Robot,
      greet_someone r = dynamic_greet (.ofRobot r) ∧
      greet_someone r = r.say_hello) ∧
    (∀ c : Color,
      greet_someone c = dynamic_greet (.ofColor c) ∧
      greet_someone c = c.say_hello) := by
  refine ⟨fun p => ⟨rfl, rfl⟩, fun r => ⟨rfl, rfl⟩, fun c => ⟨rfl, rfl⟩⟩

/-- C10: any implementation of the default-bodied trait that keeps the
default — in particular `Robot` via `impl Greet for Robot {}` and
`Bird` — returns exactly "Default hello" from `say_hello`. -/
theorem default_say_hello :
    (∀ (α : Type) (a : α), (defaultGreetInst α).say_hello a = "Default hello") ∧
    GreetDefault.say_hello (⟨⟩ : Robot) = "Default hello" ∧
    GreetDefault.say_hello (⟨⟩ : Bird) = "Default hello" := by
  refine ⟨fun α a => rfl, rfl, rfl⟩

/-- C4, behaviour of the code as written: the source's guard tests the
outer `x`, not the bound `k`. With the nearest in-scope binding `x = 2`
the input `Some(3)` takes the guarded arm and prints the "even" line; and
for EVERY value of `x` the code disagrees with the claim on `Some(4)` or
on `Some(3)`, while the spec-intended guard on `k` yields "even" for
`Some(4)` and "odd" for `Some(3)`. -/
theorem match_guard_code_divergence :
    matchNum 2 (some 3) = "The number 3 is even." ∧
    matchNumSpec (some 4) = "The number 4 is even." ∧
    matchNumSpec (some 3) = "The number 3 is odd." ∧
    ∀ x : Int, matchNum x (some 4) ≠ "The number 4 is even." ∨
      matchNum x (some 3) ≠ "The number 3 is odd." := by
  refine ⟨by decide, by decide, by decide, ?_⟩
  intro x
  rcases Bool.eq_false_or_eq_true (x % 2 == 0) with h | h
  · right
    simp only [matchNum, h, if_true]
    decide
  · left
    simp only [matchNum, h, if_false, Bool.false_eq_true]
    decide

/-- C5: `describe` renders `V4(127,0,0,1)` as "127.0.0.1" and returns the
`V6` text verbatim; in general the four `V4` fields appear as a dotted
sequence. -/
theorem describe_spec :
    describe home = "127.0.0.1" ∧
    describe loopback = "::1" ∧
    (∀ a b c d : Nat,
      describe (.V4 a b c d) =
        toString a ++ "." ++ toString b ++ "." ++ toString c ++ "." ++ toString d) ∧
    ∀ s : String, describe (.V6 s) = s := by
  refine ⟨by decide, rfl, fun a b c d => rfl, fun s => rfl⟩

/-- C6: the `if let` forms are equivalent to the corresponding full
matches with a wildcard arm, for every input: same printed output for
`config_max`, and same (output, final count) for `coin`. -/
theorem if_let_match_equiv :
    (∀ config_max : Option Nat,
      configMaxIfLet config_max = configMaxMatch config_max) ∧
    ∀ (count : Nat) (coin : Coin),
      coinCountIfLet count coin = coinCountMatch count coin := by
  constructor
  · intro c
    cases c <;> rfl
  · intro n c
    cases c <;> rfl

/-- C7: the arm `(Some(_), Some(_))` matches every pair of present
values — the wildcard sub-patterns constrain nothing — including the
file's `(Some(1), Some(2))`. -/
theorem pair_wildcards_match :
    (∀ a b : Int, matchPair (some a, some b) = some "Yo") ∧
    matchPair (some 1, some 2) = some "Yo" :=
  ⟨fun _ _ => rfl, rfl⟩

/-- C8: draining the FIFO channel with `while let Ok(value) = rx.recv()`
prints exactly the sent values 1, 2, 3 in send order; each loop step is
one `recv`, and the loop ends when the channel yields no further values
(in general the received list equals the sent list). -/
theorem channel_fifo :
    whileLetRecv sent = [1, 2, 3] ∧
    (∀ ch : List Int,
      whileLetRecv ch =
        match recv ch with
        | .ok (v, rest) => v :: whileLetRecv rest
        | .error _ => []) ∧
    ∀ ch : List Int, whileLetRecv ch = ch := by
  refine ⟨rfl, fun ch => ?_, fun ch => ?_⟩
  · cases ch <;> rfl
  · induction ch with
    | nil => rfl
    | cons v rest ih => simp [whileLetRecv, ih]

end ProlangsGuide
